import Mathlib

/-!
Verification development for the MyPass password manager.

The definitions below are shallow embeddings of the Python source:

* `src/models/security.py` — `SecurityManager` (strength scoring, password
  generation, choice of randomness source);
* `src/models/__init__.py` — `DatabaseManager` (the SQLite-backed store:
  save / load / search / delete / duplicate check / unique-name probing);
* `src/controllers/password_controller.py` — the save path of the façade.

Modelling conventions:

* The SQLite table `passwords` is modelled as a `List Record` in rowid
  (insertion) order; `SELECT ... ORDER BY website` is `List.mergeSort`.
* The SQLite default `=` comparison on TEXT is case-sensitive (BINARY
  collation) and is modelled with `String` equality; `LIKE %t%` is
  case-insensitive for ASCII and is modelled by `like_contains`, a
  case-insensitive substring test (wildcard characters inside the search
  term itself are not modelled).
* The Python `str.lower` / `str.islower` / `str.isupper` / `str.isdigit`
  are modelled by `Char.toLower` / `Char.isLower` / `Char.isUpper` /
  `Char.isDigit`, i.e. over the ASCII range the code actually uses.
* Randomness in `generate_advanced_password` is modelled by an explicit
  oracle (`RandOracle`): `pickAt i s` is the result of the `i`-th call to
  `choice(s)` and `shuffle` models `random.shuffle`; theorems assume only
  that picks are members and that `shuffle` permutes.
* `except`-handlers around the SQLite calls are modelled by running the
  operation on an `Except StorageErr _` input where the claim is about
  the failure path, and on the plain store where it is not.
-/

namespace MyPass

/-- Persisted row of the `passwords` table created by
`DatabaseManager._initialize_database`: columns `website`, `email`,
`encrypted_password`, `salt`, `date_added`, `category` (the integer
primary key is the list position and is not carried in the model).
Note there is no password-digest column. -/
structure Record where
  website : String
  email : String
  encrypted_password : String
  salt : String
  date_added : String
  category : String
deriving DecidableEq, Repr

/-- Storage-layer failure (sqlite exception) feeding an `except` handler. -/
inductive StorageErr where
  | ioError : String → StorageErr
deriving DecidableEq, Repr

/-- Case-folded character list of a string: models Python `s.lower()`
over the ASCII range (and the ASCII-only `LIKE` case folding of SQLite). -/
def lower_data (s : String) : List Char :=
  s.data.map Char.toLower

/-- Substring test on character lists. -/
def infix_of (pat : List Char) : List Char → Bool
  | [] => pat.isEmpty
  | c :: rest => pat.isPrefixOf (c :: rest) || infix_of pat rest

/-- Model of SQLite `column LIKE %term%`: case-insensitive substring
containment of `term` in `s`. -/
def like_contains (s term : String) : Bool :=
  infix_of (lower_data term) (lower_data s)

/-- Exact identity-pair comparison used by `save_password` and
`delete_password` (`WHERE website = ? AND email = ?`, case-sensitive). -/
def identity_matches (r : Record) (website email : String) : Bool :=
  r.website == website && r.email == email

/-- Embedding of `DatabaseManager.save_password` (src/models/__init__.py
lines 81-115): if a row with the same case-sensitive identity pair
exists, UPDATE its secret/salt/timestamp/category in place (identity
fields untouched); otherwise INSERT a new row at the end. The success
path returns `true`; the exception branches are outside the model. -/
def save_password (store : List Record) (website email encrypted_password salt category now : String) :
    List Record × Bool :=
  if store.any (fun r => identity_matches r website email) then
    (store.map (fun r =>
      if identity_matches r website email then
        { r with encrypted_password := encrypted_password, salt := salt,
                 date_added := now, category := category }
      else r), true)
  else
    (store ++ [⟨website, email, encrypted_password, salt, now, category⟩], true)

/-- Embedding of `DatabaseManager.delete_password` (lines 141-151):
`DELETE FROM passwords WHERE website = ? AND email = ?`, commit, and
`return True` — unconditionally on the success path, with no check of
how many rows were affected. -/
def delete_password (store : List Record) (website email : String) : List Record × Bool :=
  (store.filter (fun r => !(identity_matches r website email)), true)

/-- Row shape produced by `load_passwords` / `search_passwords`:
`SELECT website, category, email, encrypted_password, date_added`. -/
def select_row (r : Record) : String × String × String × String × String :=
  (r.website, r.category, r.email, r.encrypted_password, r.date_added)

/-- Embedding of `DatabaseManager.load_passwords` (lines 117-127): on a
successful read, all rows ordered by website; on any storage exception
the handler logs and returns the empty list. -/
def load_passwords (fetch : Except StorageErr (List Record)) :
    List (String × String × String × String × String) :=
  match fetch with
  | .ok rows => (rows.mergeSort (fun a b => a.website ≤ b.website)).map select_row
  | .error _ => []

/-- Embedding of `DatabaseManager.search_passwords` (lines 129-139):
`WHERE website LIKE %term%` on a successful read; on any storage
exception the handler logs and returns the empty list. -/
def search_passwords (term : String) (fetch : Except StorageErr (List Record)) :
    List (String × String × String × String × String) :=
  match fetch with
  | .ok rows => (rows.filter (fun r => like_contains r.website term)).map select_row
  | .error _ => []

/-! ## Security manager: strength scoring (src/models/security.py 93-121) -/

/-- Symbol alphabet shared by the strength checker and the default
generation symbol set: `!@#$%^&*()_+-=[]{}|;:,.<>?`. -/
def default_symbols : String := "!@#$%^&*()_+-=[]\x7b\x7d|;:,.<>?"

/-- Embedding of the sequential score accumulation in
`SecurityManager.check_password_strength`. -/
def score_of (password : String) : Nat :=
  let s1 := if password.length ≥ 8 then 1 else 0
  let s2 := if password.length ≥ 12 then s1 + 1 else s1
  let s3 := if password.length ≥ 16 then s2 + 1 else s2
  let s4 := if password.data.any Char.isLower then s3 + 1 else s3
  let s5 := if password.data.any Char.isUpper then s4 + 1 else s4
  let s6 := if password.data.any Char.isDigit then s5 + 1 else s5
  if password.data.any (fun c => default_symbols.data.contains c) then s6 + 1 else s6

/-- Embedding of the `strength_levels` dictionary together with its
`.get(score, ("Unknown", "#757575"))` fallback. -/
def strength_levels (score : Nat) : String × String :=
  match score with
  | 0 => ("Very Weak", "#f44336")
  | 1 => ("Very Weak", "#f44336")
  | 2 => ("Weak", "#FF9800")
  | 3 => ("Fair", "#FFC107")
  | 4 => ("Good", "#8BC34A")
  | 5 => ("Strong", "#4CAF50")
  | 6 => ("Very Strong", "#2E7D32")
  | 7 => ("Excellent", "#1B5E20")
  | _ => ("Unknown", "#757575")

/-- Embedding of `SecurityManager.check_password_strength`: returns
(level, color, score). -/
def check_password_strength (password : String) : String × String × Nat :=
  let score := score_of password
  let lc := strength_levels score
  (lc.1, lc.2, score)

/-- Specification-side score, written as the claim states it: one
independent point per satisfied length threshold plus one point per
character class present. -/
def spec_score (password : String) : Nat :=
  (if password.length ≥ 8 then 1 else 0) +
  (if password.length ≥ 12 then 1 else 0) +
  (if password.length ≥ 16 then 1 else 0) +
  (if password.data.any Char.isLower then 1 else 0) +
  (if password.data.any Char.isUpper then 1 else 0) +
  (if password.data.any Char.isDigit then 1 else 0) +
  (if password.data.any (fun c => default_symbols.data.contains c) then 1 else 0)

/-! ## Security manager: randomness source (src/models/security.py line 11) -/

/-- Kinds of random source a Python module can draw from: the
general-purpose `random` module (Mersenne Twister) or the CSPRNG-backed
`secrets` module. -/
inductive RandSource where
  | mersenneTwister : RandSource
  | secretsCSPRNG : RandSource
deriving DecidableEq, Repr

/-- Provenance of the `choice` and `shuffle` functions used by
`SecurityManager.generate_advanced_password`: line 11 of
src/models/security.py reads `from random import choice, shuffle`, so
every draw in generation (guaranteed class characters, fill characters,
and the final shuffle) comes from the general-purpose Mersenne Twister
generator, not from the `secrets` module imported for salts. -/
def password_generation_rand_source : RandSource := RandSource.mersenneTwister

/-! ## Security manager: password generation (src/models/security.py 123-175) -/

/-- Explicit random oracle standing for the state of the `random` module:
`pickAt i s` is the value of the `i`-th `choice(s)` call made during one
generation request, and `shuffle` is the in-place `random.shuffle`
modelled functionally. -/
structure RandOracle where
  pickAt : Nat → String → Char
  shuffle : List Char → List Char

/-- Alphabet literal of the 26 lowercase ASCII letters. -/
def lowercase_chars : String := "abcdefghijklmnopqrstuvwxyz"

/-- Alphabet literal of the 26 uppercase ASCII letters. -/
def uppercase_chars : String := "ABCDEFGHIJKLMNOPQRSTUVWXYZ"

/-- Alphabet literal of the ten decimal digits. -/
def default_numbers : String := "0123456789"

/-- Character sequence assembled by the body of
`generate_advanced_password` before the final shuffle: one `choice` per
enabled *non-empty* class alphabet (the Python `if use_x and x:`
truthiness test), then `choice(chars)` draws filling the remaining
length (`max(0, length - len(parts))`, which is Nat subtraction). Each
`choice` call site carries a fixed oracle index — the oracle abstracts
the PRNG stream, and only which alphabet each draw comes from matters. -/
def assembled_parts (r : RandOracle) (len : Nat)
    (use_lowercase use_uppercase use_numbers use_symbols : Bool)
    (lowercase uppercase numbers symbols chars : String) : List Char :=
  let p1 : List Char :=
    if use_lowercase && !lowercase.data.isEmpty then [r.pickAt 0 lowercase] else []
  let p2 : List Char :=
    if use_uppercase && !uppercase.data.isEmpty then [r.pickAt 1 uppercase] else []
  let p3 : List Char :=
    if use_numbers && !numbers.data.isEmpty then [r.pickAt 2 numbers] else []
  let p4 : List Char :=
    if use_symbols && !symbols.data.isEmpty then [r.pickAt 3 symbols] else []
  let parts := p1 ++ p2 ++ p3 ++ p4
  let remaining := len - parts.length
  parts ++ (List.range remaining).map (fun i => r.pickAt (4 + i) chars)

/-- Embedding of `SecurityManager.generate_advanced_password`. Mirrors
the source: default the custom alphabets, reject lengths outside 8..50,
build the enabled class alphabets (note an explicitly empty custom
alphabet leaves its class empty even when enabled), reject an empty
union alphabet, then shuffle the assembled guaranteed-plus-fill
sequence. -/
def generate_advanced_password (r : RandOracle) (len : Nat)
    (use_lowercase use_uppercase use_numbers use_symbols : Bool)
    (custom_symbols custom_numbers : Option String) : Except String String :=
  let csymbols := custom_symbols.getD default_symbols
  let cnumbers := custom_numbers.getD default_numbers
  if len < 8 ∨ 50 < len then
    .error "Password length must be between 8 and 50 characters"
  else
    let lowercase := if use_lowercase then lowercase_chars else ""
    let uppercase := if use_uppercase then uppercase_chars else ""
    let numbers := if use_numbers then cnumbers else ""
    let symbols := if use_symbols then csymbols else ""
    let chars := lowercase ++ uppercase ++ numbers ++ symbols
    if chars.data.isEmpty then
      .error "Please select at least one character type"
    else
      .ok (String.mk (r.shuffle (assembled_parts r len use_lowercase use_uppercase
        use_numbers use_symbols lowercase uppercase numbers symbols chars)))

/-! ## Duplicate detection (src/models/__init__.py 153-188) -/

/-- Row shape of the duplicate query and of the dictionaries built by
`check_duplicate`: website, email, category, date_added. -/
structure DupInfo where
  website : String
  email : String
  category : String
  date_added : String
deriving DecidableEq, Repr

/-- Projection of a stored row to the duplicate-dialog dictionary. -/
def dup_info (r : Record) : DupInfo :=
  ⟨r.website, r.email, r.category, r.date_added⟩

/-- SQL filter of `check_duplicate`:
`WHERE website LIKE %w% OR email LIKE %e%`. -/
def dup_query_hit (r : Record) (website email : String) : Bool :=
  like_contains r.website website || like_contains r.email email

/-- Python-side exact test of `check_duplicate`:
`result_website.lower() == website.lower() and result_email.lower() == email.lower()`. -/
def ci_exact (r : Record) (website email : String) : Bool :=
  lower_data r.website == lower_data website && lower_data r.email == lower_data email

/-- Embedding of `DatabaseManager.check_duplicate`: run the OR-LIKE
query, then fold over the result rows, overwriting `exact_match` on
every case-insensitive full match and appending every other row to the
`duplicates` list. -/
def check_duplicate (store : List Record) (website email : String) :
    Option DupInfo × List DupInfo :=
  let results := store.filter (fun r => dup_query_hit r website email)
  results.foldl
    (fun acc r =>
      if ci_exact r website email then (some (dup_info r), acc.2)
      else (acc.1, acc.2 ++ [dup_info r]))
    (none, [])

/-- Declarative description of the exact-match slot actually computed:
the last (most recently inserted) queried row that matches
case-insensitively on both identity fields. -/
def exact_match_spec (store : List Record) (website email : String) : Option DupInfo :=
  (((store.filter (fun r => dup_query_hit r website email)).reverse).find?
    (fun r => ci_exact r website email)).map dup_info

/-- Declarative description of the near-match list actually computed:
the queried rows that are not case-insensitive full matches, in store
order. -/
def near_matches_spec (store : List Record) (website email : String) : List DupInfo :=
  ((store.filter (fun r => dup_query_hit r website email)).filter
    (fun r => !(ci_exact r website email))).map dup_info

/-! ## Unique website naming (src/models/__init__.py 190-200) -/

/-- SQL probe `SELECT COUNT(*) FROM passwords WHERE website = ?`
rendered as a boolean: does some stored row carry this exact website? -/
def website_taken (store : List Record) (name : String) : Bool :=
  store.any (fun r => r.website == name)

/-- Candidate name `f"{base_name} ({counter})"`. -/
def candidate_name (base : String) (k : Nat) : String :=
  base ++ " (" ++ Nat.repr k ++ ")"

/-- Fuelled rendering of the `while True` probe loop of
`get_unique_website_name`; the theorem for the claim shows that
`store.length + 1` units of fuel always suffice, which is exactly the
termination bound the claim states. -/
def unique_name_loop (store : List Record) (base : String) : Nat → Nat → Option String
  | _, 0 => none
  | counter, fuel + 1 =>
    if website_taken store (candidate_name base counter) then
      unique_name_loop store base (counter + 1) fuel
    else
      some (candidate_name base counter)

/-- Embedding of `DatabaseManager.get_unique_website_name`: probe
`base (1)`, `base (2)`, ... and return the first free candidate. -/
def get_unique_website_name (store : List Record) (base : String) : Option String :=
  unique_name_loop store base 1 (store.length + 1)

/-! ## Store operation sequences (for the uniqueness invariant) -/

/-- User-visible mutations of the store reachable through the façade:
a (possibly conflict-resolved) save, or a delete. An `Overwrite`
resolution re-enters `save_password` with the same identity pair and a
`CreateNew` resolution re-enters it with the derived unique website
name, so both are instances of the `save` operation. -/
inductive StoreOp where
  | save (website email encrypted_password salt category now : String) : StoreOp
  | delete (website email : String) : StoreOp

/-- Apply one operation to the store (success paths). -/
def apply_op (store : List Record) : StoreOp → List Record
  | .save w e enc s c now => (save_password store w e enc s c now).1
  | .delete w e => (delete_password store w e).1

/-- Run a sequence of operations from the empty store created by
`_initialize_database`. -/
def run_ops (ops : List StoreOp) : List Record :=
  ops.foldl apply_op []

/-- The store never holds two rows with the same case-sensitive
identity pair (the `UNIQUE(website, email)` discipline). -/
def distinct_identities (store : List Record) : Prop :=
  store.Pairwise (fun a b => ¬(a.website = b.website ∧ a.email = b.email))

/-! ## Façade save path (src/controllers/password_controller.py 223-233) -/

/-- Embedding of the persistence tail of `PasswordController.save_password`:
`encrypted_password = encrypt_data(password)`, then
`password_hash, salt = hash_password(password)`, then the store call
receives the ciphertext and ONLY the salt component — the digest
(`password_hash`, first component) is bound and never used. The Fernet
encryption and PBKDF2 hash are opaque primitives, passed as explicit
function parameters. -/
def controller_save (encrypt : String → String)
    (hash_password : String → String × String)
    (store : List Record) (website email password category now : String) :
    List Record × Bool :=
  let encrypted_password := encrypt password
  let salt := (hash_password password).2
  save_password store website email encrypted_password salt category now

/-! ## Theorems -/

/-- C1 counterexample: a storage I/O error in `load_passwords` or
`search_passwords` is swallowed by the `except` handler into the empty
list, which is literally the same value the caller gets for a genuinely
empty store — no `StorageUnavailable` error can reach the caller, so an
empty result does NOT imply the store holds no matching records. -/
theorem load_search_error_counterexample :
    load_passwords (Except.error (StorageErr.ioError "disk I/O error")) = [] ∧
    search_passwords "bank" (Except.error (StorageErr.ioError "disk I/O error")) = [] ∧
    load_passwords (Except.error (StorageErr.ioError "disk I/O error")) =
      load_passwords (Except.ok []) :=
  ⟨rfl, rfl, by simp [load_passwords]⟩

/-- C1 (amended): on any storage failure, `load_passwords` and
`search_passwords` log and return the empty list, indistinguishable
from the result on an empty store; no error surfaces to the caller. -/
theorem load_search_swallow_storage_errors :
    ∀ (e : StorageErr) (term : String),
      load_passwords (Except.error e) = [] ∧
      search_passwords term (Except.error e) = [] ∧
      load_passwords (Except.error e) = load_passwords (Except.ok []) ∧
      search_passwords term (Except.error e) = search_passwords term (Except.ok []) := by
  intro e term
  exact ⟨rfl, rfl, by simp [load_passwords], rfl⟩

/-- C2 counterexample: deleting from the empty store — where no record
with the requested identity pair can exist — still returns `true`,
because `delete_password` never inspects the affected row count. -/
theorem delete_absent_counterexample :
    delete_password [] "site.com" "user@mail.com" = ([], true) := rfl

/-- C2 (amended): `delete_password` returns `true` whenever the DELETE
statement executes, whether or not a matching record existed; it removes
every record with the given case-sensitive identity pair, and leaves the
store unchanged when none matches. -/
theorem delete_always_true_and_filters :
    ∀ (store : List Record) (website email : String),
      (delete_password store website email).2 = true ∧
      ((∀ r ∈ store, identity_matches r website email = false) →
        (delete_password store website email).1 = store) ∧
      (∀ r ∈ store, identity_matches r website email = true →
        r ∉ (delete_password store website email).1) := by
  intro store website email
  refine ⟨rfl, ?_, ?_⟩
  · intro h
    simp only [delete_password]
    rw [List.filter_eq_self]
    intro r hr
    simp [h r hr]
  · intro r hr hmatch
    simp [delete_password, hmatch]

/-- C2 witness: evaluating the amended theorem on a one-record store and
a non-matching identity pair. -/
theorem delete_always_true_and_filters_witness :
    (delete_password [⟨"a.com", "u", "p", "s", "d", "General"⟩] "b.com" "x").1 =
      [⟨"a.com", "u", "p", "s", "d", "General"⟩] :=
  (delete_always_true_and_filters [⟨"a.com", "u", "p", "s", "d", "General"⟩] "b.com" "x").2.1
    (by decide)

/-- C3: every random draw in `generate_advanced_password` (the per-class
guaranteed characters, the fill characters, and the final shuffle) comes
from the general-purpose Mersenne Twister `random` module imported on
line 11 of src/models/security.py, not from the CSPRNG-backed `secrets`
module the claim requires. -/
theorem generation_randomness_not_cryptographic :
    password_generation_rand_source = RandSource.mersenneTwister ∧
    password_generation_rand_source ≠ RandSource.secretsCSPRNG :=
  ⟨rfl, by decide⟩

/-- Helper: the sequential accumulation in `score_of` computes the sum
of the seven independent indicator points. -/
theorem score_of_eq_spec_score (p : String) : score_of p = spec_score p := by
  unfold score_of spec_score
  split_ifs <;> rfl

/-- Helper: the indicator sum is bounded by 7. -/
theorem spec_score_le_seven (p : String) : spec_score p ≤ 7 := by
  unfold spec_score
  split_ifs <;> omega

/-- C8: the strength score equals one point per satisfied length
threshold plus one point per present character class, is at most 7, the
level/color pair is read from the fixed 8-entry table, and every score
outside the 0..7 table domain maps to the "Unknown" fallback. -/
theorem strength_score_table_correct :
    (∀ p : String, score_of p = spec_score p ∧ score_of p ≤ 7 ∧
      check_password_strength p =
        ((strength_levels (spec_score p)).1, (strength_levels (spec_score p)).2,
          spec_score p)) ∧
    (∀ n : Nat, 7 < n → strength_levels n = ("Unknown", "#757575")) ∧
    strength_levels 0 = ("Very Weak", "#f44336") ∧
    strength_levels 1 = ("Very Weak", "#f44336") ∧
    strength_levels 2 = ("Weak", "#FF9800") ∧
    strength_levels 3 = ("Fair", "#FFC107") ∧
    strength_levels 4 = ("Good", "#8BC34A") ∧
    strength_levels 5 = ("Strong", "#4CAF50") ∧
    strength_levels 6 = ("Very Strong", "#2E7D32") ∧
    strength_levels 7 = ("Excellent", "#1B5E20") := by
  refine ⟨?_, ?_, rfl, rfl, rfl, rfl, rfl, rfl, rfl, rfl⟩
  · intro p
    refine ⟨score_of_eq_spec_score p, ?_, ?_⟩
    · rw [score_of_eq_spec_score p]
      exact spec_score_le_seven p
    · simp only [check_password_strength, score_of_eq_spec_score p]
  · intro n hn
    obtain ⟨m, rfl⟩ : ∃ m, n = m + 8 := ⟨n - 8, by omega⟩
    rfl

/-- C8 witness: the fallback level at the concrete out-of-domain score 8,
via the theorem. -/
theorem strength_score_table_correct_witness :
    strength_levels 8 = ("Unknown", "#757575") :=
  strength_score_table_correct.2.1 8 (by decide)

/-- C9: `generate_advanced_password` returns an error (and hence no
password) whenever the requested length lies outside 8..50, and whenever
all four character classes are disabled. -/
theorem generate_rejects_invalid_policy :
    ∀ (r : RandOracle) (len : Nat) (ul uu un us : Bool) (cs cn : Option String),
      (len < 8 ∨ 50 < len →
        generate_advanced_password r len ul uu un us cs cn =
          Except.error "Password length must be between 8 and 50 characters") ∧
      (ul = false → uu = false → un = false → us = false →
        ∃ msg, generate_advanced_password r len ul uu un us cs cn = Except.error msg) := by
  intro r len ul uu un us cs cn
  constructor
  · intro h
    simp only [generate_advanced_password, if_pos h]
  · intro h1 h2 h3 h4
    subst h1; subst h2; subst h3; subst h4
    by_cases hlen : len < 8 ∨ 50 < len
    · exact ⟨"Password length must be between 8 and 50 characters",
        by simp only [generate_advanced_password, if_pos hlen]⟩
    · exact ⟨"Please select at least one character type",
        by simp [generate_advanced_password, if_neg hlen]⟩

/-- C9 witness: lengths 7 and 51 and the all-disabled policy each fail,
via the theorem at a concrete oracle. -/
theorem generate_rejects_invalid_policy_witness :
    generate_advanced_password ⟨fun _ s => s.data.headD 'a', id⟩ 7 true true true true
        none none =
      Except.error "Password length must be between 8 and 50 characters" ∧
    generate_advanced_password ⟨fun _ s => s.data.headD 'a', id⟩ 51 true true true true
        none none =
      Except.error "Password length must be between 8 and 50 characters" ∧
    ∃ msg, generate_advanced_password ⟨fun _ s => s.data.headD 'a', id⟩ 16 false false
        false false none none = Except.error msg :=
  ⟨(generate_rejects_invalid_policy _ 7 true true true true none none).1 (Or.inl (by decide)),
   (generate_rejects_invalid_policy _ 51 true true true true none none).1 (Or.inr (by decide)),
   (generate_rejects_invalid_policy _ 16 false false false false none none).2 rfl rfl rfl rfl⟩

/-- Helper: decimal value of a digit character. -/
def digit_val (c : Char) : Nat := c.toNat - 48

/-- Helper: numeric value of a decimal digit string, used to invert
`Nat.repr`. -/
def digits_val (l : List Char) : Nat :=
  l.foldl (fun acc c => acc * 10 + digit_val c) 0

/-- Helper: `Nat.toDigitsCore` only appends in front of its
accumulator. -/
theorem toDigitsCore_append (b : Nat) :
    ∀ (fuel n : Nat) (ds : List Char),
      Nat.toDigitsCore b fuel n ds = Nat.toDigitsCore b fuel n [] ++ ds := by
  intro fuel
  induction fuel with
  | zero => intro n ds; rfl
  | succ fuel ih =>
    intro n ds
    simp only [Nat.toDigitsCore]
    by_cases h : n / b = 0
    · rw [if_pos h, if_pos h]
      rfl
    · rw [if_neg h, if_neg h, ih (n / b) [Nat.digitChar (n % b)],
        ih (n / b) (Nat.digitChar (n % b) :: ds), List.append_assoc]
      rfl

/-- Helper: `digit_val` inverts `Nat.digitChar` on decimal digits. -/
theorem digit_val_digitChar (k : Nat) (h : k < 10) :
    digit_val (Nat.digitChar k) = k := by
  interval_cases k <;> rfl

/-- Helper: `digits_val` recovers the number rendered by
`Nat.toDigitsCore` in base 10. -/
theorem digits_val_toDigitsCore :
    ∀ (fuel n : Nat), n < fuel → digits_val (Nat.toDigitsCore 10 fuel n []) = n := by
  intro fuel
  induction fuel with
  | zero => intro n h; omega
  | succ fuel ih =>
    intro n hn
    simp only [Nat.toDigitsCore]
    by_cases h : n / 10 = 0
    · rw [if_pos h]
      show digits_val [Nat.digitChar (n % 10)] = n
      have hone : digits_val [Nat.digitChar (n % 10)] = digit_val (Nat.digitChar (n % 10)) := by
        simp [digits_val]
      rw [hone, digit_val_digitChar (n % 10) (by omega)]
      omega
    · rw [if_neg h, toDigitsCore_append]
      have hfold :
          digits_val (Nat.toDigitsCore 10 fuel (n / 10) [] ++ [Nat.digitChar (n % 10)]) =
            digits_val (Nat.toDigitsCore 10 fuel (n / 10) []) * 10 +
              digit_val (Nat.digitChar (n % 10)) := by
        simp [digits_val, List.foldl_append]
      rw [hfold, ih (n / 10) (by omega), digit_val_digitChar (n % 10) (by omega)]
      omega

/-- Helper: `digits_val` is a left inverse of `Nat.repr`. -/
theorem repr_roundtrip (n : Nat) : digits_val (Nat.repr n).data = n := by
  show digits_val (Nat.toDigitsCore 10 (n + 1) n []).asString.data = n
  exact digits_val_toDigitsCore (n + 1) n (Nat.lt_succ_self n)

/-- Helper: distinct counters give distinct probe names. -/
theorem candidate_name_inj (base : String) : Function.Injective (candidate_name base) := by
  intro j k h
  unfold candidate_name at h
  have hd := congrArg String.data h
  simp only [String.data_append] at hd
  have h1 := List.append_cancel_left (List.append_cancel_right hd)
  have hj := repr_roundtrip j
  rw [h1, repr_roundtrip k] at hj
  exact hj.symm

/-- Helper (pigeonhole): among the first `store.length + 1` candidate
names, at least one is not a stored website. -/
theorem exists_free_candidate (store : List Record) (base : String) :
    ∃ k, 1 ≤ k ∧ k ≤ store.length + 1 ∧
      website_taken store (candidate_name base k) = false := by
  by_contra hall
  push_neg at hall
  have hsub : ((List.range (store.length + 1)).map fun i => candidate_name base (i + 1)) ⊆
      store.map (fun r => r.website) := by
    intro x hx
    rw [List.mem_map] at hx
    obtain ⟨i, hi, rfl⟩ := hx
    rw [List.mem_range] at hi
    have ht : website_taken store (candidate_name base (i + 1)) = true := by
      have hne := hall (i + 1) (by omega) (by omega)
      cases hb : website_taken store (candidate_name base (i + 1))
      · exact absurd hb hne
      · rfl
    rw [website_taken, List.any_eq_true] at ht
    obtain ⟨r, hr, hbeq⟩ := ht
    rw [List.mem_map]
    exact ⟨r, hr, beq_iff_eq.mp hbeq⟩
  have hnd : ((List.range (store.length + 1)).map fun i => candidate_name base (i + 1)).Nodup := by
    refine List.Nodup.map ?_ (List.nodup_range _)
    intro a b hab
    have := candidate_name_inj base hab
    omega
  have hc1 := List.toFinset_card_of_nodup hnd
  rw [List.length_map, List.length_range] at hc1
  have hle : ((List.range (store.length + 1)).map fun i => candidate_name base (i + 1)).toFinset ⊆
      (store.map fun r => r.website).toFinset := by
    intro x hx
    rw [List.mem_toFinset] at hx ⊢
    exact hsub hx
  have hc2 := Finset.card_le_card hle
  have hc3 := List.toFinset_card_le (store.map fun r => r.website)
  rw [List.length_map] at hc3
  omega

/-- Helper: with enough fuel, the probe loop started at `c` returns the
least free counter `n ≥ c`, provided every counter in `[c, n)` is
taken. -/
theorem unique_name_loop_finds (store : List Record) (base : String) (n : Nat)
    (hfree : website_taken store (candidate_name base n) = false) :
    ∀ (fuel c : Nat), c ≤ n → n < c + fuel →
      (∀ m, c ≤ m → m < n → website_taken store (candidate_name base m) = true) →
      unique_name_loop store base c fuel = some (candidate_name base n) := by
  intro fuel
  induction fuel with
  | zero => intro c h1 h2 _; omega
  | succ fuel ih =>
    intro c h1 h2 hbusy
    rw [unique_name_loop]
    by_cases hc : c = n
    · subst hc
      rw [hfree]
      simp
    · rw [hbusy c (Nat.le_refl c) (by omega)]
      simp only [if_true]
      exact ih (c + 1) (by omega) (by omega) (fun m hm1 hm2 => hbusy m (by omega) hm2)

/-- Helper: a non-nil list is not `isEmpty`. -/
theorem isEmpty_false_of_ne_nil {l : List Char} (h : l ≠ []) : l.isEmpty = false := by
  cases l with
  | nil => exact absurd rfl h
  | cons a l => rfl

/-- Helper: an enabled class with a non-empty alphabet contributes a
character of that alphabet to the assembled pre-shuffle sequence. -/
theorem assembled_parts_coverage (r : RandOracle) (len : Nat)
    (ul uu un us : Bool) (lowercase uppercase numbers symbols chars : String)
    (hpick : ∀ i s, s.data ≠ [] → r.pickAt i s ∈ s.data) :
    (ul = true → lowercase.data ≠ [] →
      ∃ c ∈ assembled_parts r len ul uu un us lowercase uppercase numbers symbols chars,
        c ∈ lowercase.data) ∧
    (uu = true → uppercase.data ≠ [] →
      ∃ c ∈ assembled_parts r len ul uu un us lowercase uppercase numbers symbols chars,
        c ∈ uppercase.data) ∧
    (un = true → numbers.data ≠ [] →
      ∃ c ∈ assembled_parts r len ul uu un us lowercase uppercase numbers symbols chars,
        c ∈ numbers.data) ∧
    (us = true → symbols.data ≠ [] →
      ∃ c ∈ assembled_parts r len ul uu un us lowercase uppercase numbers symbols chars,
        c ∈ symbols.data) := by
  refine ⟨?_, ?_, ?_, ?_⟩
  · intro h hne
    subst h
    have hc : (true && !lowercase.data.isEmpty) = true := by
      rw [isEmpty_false_of_ne_nil hne]; rfl
    refine ⟨r.pickAt 0 lowercase, ?_, hpick 0 lowercase hne⟩
    simp only [assembled_parts]
    rw [if_pos hc]
    exact List.mem_append_left _ (List.mem_append_left _ (List.mem_append_left _
      (List.mem_append_left _ (List.mem_singleton_self _))))
  · intro h hne
    subst h
    have hc : (true && !uppercase.data.isEmpty) = true := by
      rw [isEmpty_false_of_ne_nil hne]; rfl
    refine ⟨r.pickAt 1 uppercase, ?_, hpick 1 uppercase hne⟩
    simp only [assembled_parts]
    rw [if_pos hc]
    exact List.mem_append_left _ (List.mem_append_left _ (List.mem_append_left _
      (List.mem_append_right _ (List.mem_singleton_self _))))
  · intro h hne
    subst h
    have hc : (true && !numbers.data.isEmpty) = true := by
      rw [isEmpty_false_of_ne_nil hne]; rfl
    refine ⟨r.pickAt 2 numbers, ?_, hpick 2 numbers hne⟩
    simp only [assembled_parts]
    rw [if_pos hc]
    exact List.mem_append_left _ (List.mem_append_left _
      (List.mem_append_right _ (List.mem_singleton_self _)))
  · intro h hne
    subst h
    have hc : (true && !symbols.data.isEmpty) = true := by
      rw [isEmpty_false_of_ne_nil hne]; rfl
    refine ⟨r.pickAt 3 symbols, ?_, hpick 3 symbols hne⟩
    simp only [assembled_parts]
    rw [if_pos hc]
    exact List.mem_append_left _
      (List.mem_append_right _ (List.mem_singleton_self _))

/-- C7 counterexample: with the digit class enabled but its custom
alphabet explicitly empty (`custom_numbers=""`), a password IS returned
(policy has an enabled class, length 8 is in range) yet it contains no
digit at all: the `if use_numbers and numbers:` truthiness guard
silently skips the guaranteed digit and the fill alphabet holds no
digits either. Concretely, with an oracle always picking the first
alphabet character, the result is "aaaaaaaa". -/
theorem generation_coverage_counterexample :
    generate_advanced_password ⟨fun _ s => s.data.headD 'a', id⟩ 8 true false true false
        none (some "") = Except.ok "aaaaaaaa" ∧
    ∀ c ∈ ("aaaaaaaa" : String).data, ¬(c.isDigit = true) := by
  constructor
  · rfl
  · decide

/-- C7 (amended): every password returned by
`generate_advanced_password` contains at least one character from each
enabled class whose (possibly custom) alphabet is non-empty — guaranteed
deterministically by the inserted per-class character, which survives
the fill and the shuffle; an enabled digit/symbol class whose custom
alphabet is explicitly empty contributes no guaranteed character. -/
theorem generation_class_coverage (r : RandOracle) (len : Nat)
    (ul uu un us : Bool) (cs cn : Option String)
    (hpick : ∀ i s, s.data ≠ [] → r.pickAt i s ∈ s.data)
    (hshuffle : ∀ l, (r.shuffle l).Perm l)
    (pw : String)
    (hok : generate_advanced_password r len ul uu un us cs cn = Except.ok pw) :
    (ul = true → ∃ c ∈ pw.data, c ∈ lowercase_chars.data) ∧
    (uu = true → ∃ c ∈ pw.data, c ∈ uppercase_chars.data) ∧
    (un = true → (cn.getD default_numbers).data ≠ [] →
      ∃ c ∈ pw.data, c ∈ (cn.getD default_numbers).data) ∧
    (us = true → (cs.getD default_symbols).data ≠ [] →
      ∃ c ∈ pw.data, c ∈ (cs.getD default_symbols).data) := by
  simp only [generate_advanced_password] at hok
  by_cases hlen : len < 8 ∨ 50 < len
  · rw [if_pos hlen] at hok
    cases hok
  rw [if_neg hlen] at hok
  by_cases hempty :
      ((if ul = true then lowercase_chars else "") ++
        (if uu = true then uppercase_chars else "") ++
        (if un = true then cn.getD default_numbers else "") ++
        (if us = true then cs.getD default_symbols else "")).data.isEmpty = true
  · rw [if_pos hempty] at hok
    cases hok
  rw [if_neg hempty] at hok
  have hpw : pw.data = r.shuffle (assembled_parts r len ul uu un us
      (if ul = true then lowercase_chars else "")
      (if uu = true then uppercase_chars else "")
      (if un = true then cn.getD default_numbers else "")
      (if us = true then cs.getD default_symbols else "")
      ((if ul = true then lowercase_chars else "") ++
        (if uu = true then uppercase_chars else "") ++
        (if un = true then cn.getD default_numbers else "") ++
        (if us = true then cs.getD default_symbols else ""))) := by
    have hmk := Except.ok.inj hok
    rw [← hmk]
  have hperm := hshuffle (assembled_parts r len ul uu un us
      (if ul = true then lowercase_chars else "")
      (if uu = true then uppercase_chars else "")
      (if un = true then cn.getD default_numbers else "")
      (if us = true then cs.getD default_symbols else "")
      ((if ul = true then lowercase_chars else "") ++
        (if uu = true then uppercase_chars else "") ++
        (if un = true then cn.getD default_numbers else "") ++
        (if us = true then cs.getD default_symbols else "")))
  have hcov := assembled_parts_coverage r len ul uu un us
      (if ul = true then lowercase_chars else "")
      (if uu = true then uppercase_chars else "")
      (if un = true then cn.getD default_numbers else "")
      (if us = true then cs.getD default_symbols else "")
      ((if ul = true then lowercase_chars else "") ++
        (if uu = true then uppercase_chars else "") ++
        (if un = true then cn.getD default_numbers else "") ++
        (if us = true then cs.getD default_symbols else "")) hpick
  refine ⟨?_, ?_, ?_, ?_⟩
  · intro h
    obtain ⟨c, hc, hS⟩ := hcov.1 h (by rw [if_pos h]; decide)
    refine ⟨c, ?_, by rw [if_pos h] at hS; exact hS⟩
    rw [hpw]
    exact hperm.mem_iff.mpr hc
  · intro h
    obtain ⟨c, hc, hS⟩ := hcov.2.1 h (by rw [if_pos h]; decide)
    refine ⟨c, ?_, by rw [if_pos h] at hS; exact hS⟩
    rw [hpw]
    exact hperm.mem_iff.mpr hc
  · intro h hne
    obtain ⟨c, hc, hS⟩ := hcov.2.2.1 h (by rw [if_pos h]; exact hne)
    refine ⟨c, ?_, by rw [if_pos h] at hS; exact hS⟩
    rw [hpw]
    exact hperm.mem_iff.mpr hc
  · intro h hne
    obtain ⟨c, hc, hS⟩ := hcov.2.2.2 h (by rw [if_pos h]; exact hne)
    refine ⟨c, ?_, by rw [if_pos h] at hS; exact hS⟩
    rw [hpw]
    exact hperm.mem_iff.mpr hc

/-- C7 witness: the fully-enabled default policy at length 16 with a
concrete first-character oracle yields "aA0!aaaaaaaaaaaa", and the
theorem applied there produces its guaranteed lowercase character. -/
theorem generation_class_coverage_witness :
    ∃ c ∈ ("aA0!aaaaaaaaaaaa" : String).data, c ∈ lowercase_chars.data :=
  (generation_class_coverage ⟨fun _ s => s.data.headD 'a', id⟩ 16 true true true true
    none none
    (fun i s h => by
      show s.data.headD 'a' ∈ s.data
      cases hd : s.data with
      | nil => exact absurd hd h
      | cons a l => simp)
    (fun l => List.Perm.refl l)
    "aA0!aaaaaaaaaaaa" rfl).1 rfl

/-- C6: `get_unique_website_name` returns `base (n)` for the least
`n ≥ 1` whose candidate name is not a stored website, and the probe loop
needs at most `store.length + 1` probes (the fuel given to the loop) to
reach it; on a store containing "X" and "X (1)", the call with base "X"
returns "X (2)". -/
theorem unique_website_name_correct :
    (∀ (store : List Record) (base : String), ∃ n, 1 ≤ n ∧ n ≤ store.length + 1 ∧
      website_taken store (candidate_name base n) = false ∧
      (∀ m, 1 ≤ m → m < n → website_taken store (candidate_name base m) = true) ∧
      get_unique_website_name store base = some (candidate_name base n)) ∧
    get_unique_website_name
      [⟨"X", "y", "p", "s", "d", "General"⟩, ⟨"X (1)", "y", "p", "s", "d", "General"⟩]
      "X" = some "X (2)" := by
  constructor
  · intro store base
    obtain ⟨k, hk1, hk2, hkfree⟩ := exists_free_candidate store base
    have hk' : k - 1 + 1 = k := by omega
    have hfree' : website_taken store (candidate_name base (k - 1 + 1)) = false := by
      rw [hk']
      exact hkfree
    have hex : ∃ j, website_taken store (candidate_name base (j + 1)) = false :=
      ⟨k - 1, hfree'⟩
    have hle : Nat.find hex ≤ k - 1 := Nat.find_min' hex hfree'
    have hmin : ∀ m, 1 ≤ m → m < Nat.find hex + 1 →
        website_taken store (candidate_name base m) = true := by
      intro m hm1 hm2
      have hnot := Nat.find_min hex (m := m - 1) (by omega)
      have hm : m - 1 + 1 = m := by omega
      rw [hm] at hnot
      cases hb : website_taken store (candidate_name base m)
      · exact absurd hb hnot
      · rfl
    refine ⟨Nat.find hex + 1, by omega, by omega, Nat.find_spec hex, hmin, ?_⟩
    unfold get_unique_website_name
    exact unique_name_loop_finds store base (Nat.find hex + 1) (Nat.find_spec hex)
      (store.length + 1) 1 (by omega) (by omega)
      (fun m hm1 hm2 => hmin m hm1 hm2)
  · decide

/-- C6 witness: the theorem instantiated on the empty store, where the
first probe `base (1)` is immediately free. -/
theorem unique_website_name_correct_witness :
    ∃ n, 1 ≤ n ∧ n ≤ ([] : List Record).length + 1 ∧
      website_taken [] (candidate_name "site" n) = false ∧
      (∀ m, 1 ≤ m → m < n → website_taken [] (candidate_name "site" m) = true) ∧
      get_unique_website_name [] "site" = some (candidate_name "site" n) :=
  unique_website_name_correct.1 [] "site"

/-- C10: the persisted outcome of the façade save is invariant under the
digest component of `hash_password` — two hash functions agreeing on the
salt yield identical stores — so the digest is discarded and no stored
record (whose schema has no digest column) can ever be checked with
`verify_password`. -/
theorem facade_save_discards_digest :
    ∀ (encrypt : String → String) (hash1 hash2 : String → String × String)
      (store : List Record) (website email password category now : String),
      (hash1 password).2 = (hash2 password).2 →
      controller_save encrypt hash1 store website email password category now =
        controller_save encrypt hash2 store website email password category now := by
  intro encrypt hash1 hash2 store website email password category now h
  simp only [controller_save, h]

/-- Helper: closed form of the `check_duplicate` fold — the exact slot
holds the last case-insensitive full match among the processed rows
(falling back to the accumulator) and the near list extends the
accumulator with the remaining rows in order. -/
theorem check_duplicate_fold (w e : String) :
    ∀ (l : List Record) (a : Option DupInfo) (b : List DupInfo),
      (l.foldl
        (fun acc r =>
          if ci_exact r w e then (some (dup_info r), acc.2)
          else (acc.1, acc.2 ++ [dup_info r]))
        (a, b)) =
      (((l.reverse.find? (fun r => ci_exact r w e)).map dup_info).or a,
        b ++ (l.filter (fun r => !(ci_exact r w e))).map dup_info) := by
  intro l
  induction l with
  | nil => intro a b; simp
  | cons r l ih =>
    intro a b
    rw [List.foldl_cons]
    by_cases hr : ci_exact r w e = true
    · rw [if_pos hr, ih]
      rw [List.reverse_cons, List.find?_append]
      cases hfind : l.reverse.find? (fun r => ci_exact r w e) <;>
        simp [hfind, List.find?, hr, List.filter_cons]
    · rw [if_neg hr, ih]
      rw [List.reverse_cons, List.find?_append]
      cases hfind : l.reverse.find? (fun r => ci_exact r w e) <;>
        simp [hfind, List.find?, hr, List.filter_cons]

/-- C5 counterexample: the stored uniqueness discipline is
case-sensitive, so the records ("X","y") and ("x","y") can coexist; both
match the query ("x","y") case-insensitively, and `check_duplicate`
silently drops the earlier one: it is neither the returned exact match
(which is the later record) nor in the near-match list, although it is a
stored record that textually overlaps the query and differs from the
returned exact match. -/
theorem duplicate_classification_counterexample :
    check_duplicate
        [⟨"X", "y", "p1", "s1", "d1", "General"⟩, ⟨"x", "y", "p2", "s2", "d2", "General"⟩]
        "x" "y" =
      (some ⟨"x", "y", "General", "d2"⟩, []) ∧
    dup_query_hit ⟨"X", "y", "p1", "s1", "d1", "General"⟩ "x" "y" = true ∧
    (⟨"X", "y", "General", "d1"⟩ : DupInfo) ≠ ⟨"x", "y", "General", "d2"⟩ := by
  decide

/-- C5 (amended): the exact-match slot holds the LAST stored record
whose two identity fields both equal those of the query case-insensitively (if
several such records exist — possible because stored uniqueness is
case-sensitive — the earlier ones are dropped from both outputs), and
the near matches are exactly the queried records that are not
case-insensitive full matches, in store order; the two examples of the
claim hold as stated. -/
theorem duplicate_classification_characterization :
    (∀ (store : List Record) (website email : String),
      check_duplicate store website email =
        (exact_match_spec store website email, near_matches_spec store website email)) ∧
    check_duplicate [⟨"example.com", "a@b.com", "p", "s", "d", "General"⟩]
        "Example.com" "a@b.com" =
      (some ⟨"example.com", "a@b.com", "General", "d"⟩, []) ∧
    check_duplicate [⟨"example.org", "a@b.com", "p", "s", "d", "General"⟩]
        "Example.com" "a@b.com" =
      (none, [⟨"example.org", "a@b.com", "General", "d"⟩]) := by
  refine ⟨?_, by decide, by decide⟩
  intro store website email
  unfold check_duplicate exact_match_spec near_matches_spec
  rw [check_duplicate_fold]
  simp

/-- Helper: `identity_matches` decides equality of the identity pair. -/
theorem identity_matches_iff (r : Record) (w e : String) :
    identity_matches r w e = true ↔ r.website = w ∧ r.email = e := by
  simp [identity_matches]

/-- Helper: the UPDATE branch of `save_password` touches only non-key
columns, so saving over an existing identity pair preserves the
distinct-identities invariant. -/
theorem save_preserves_distinct (store : List Record) (w e enc s c now : String)
    (h : distinct_identities store) :
    distinct_identities (save_password store w e enc s c now).1 := by
  unfold save_password
  by_cases hx : store.any (fun r => identity_matches r w e) = true
  · simp only [hx, if_true]
    unfold distinct_identities at h ⊢
    rw [List.pairwise_map]
    refine h.imp ?_
    intro a b hab
    by_cases ha : identity_matches a w e = true <;>
      by_cases hb : identity_matches b w e = true <;>
        simp [ha, hb] <;> tauto
  · simp only [hx, if_false, Bool.false_eq_true]
    unfold distinct_identities at h ⊢
    rw [List.pairwise_append]
    refine ⟨h, List.pairwise_singleton _ _, ?_⟩
    intro a ha b hb
    rw [List.mem_singleton] at hb
    subst hb
    intro ⟨hw, he⟩
    have : identity_matches a w e = true := (identity_matches_iff a w e).mpr ⟨hw, he⟩
    exact hx (List.any_eq_true.mpr ⟨a, ha, this⟩)

/-- Helper: deleting (a filter) preserves the invariant. -/
theorem delete_preserves_distinct (store : List Record) (w e : String)
    (h : distinct_identities store) :
    distinct_identities (delete_password store w e).1 :=
  List.Pairwise.sublist (List.filter_sublist store) h

/-- Helper: any operation sequence run from an invariant store keeps it. -/
theorem run_from_preserves_distinct :
    ∀ (ops : List StoreOp) (store : List Record), distinct_identities store →
      distinct_identities (ops.foldl apply_op store) := by
  intro ops
  induction ops with
  | nil => intro store h; exact h
  | cons op ops ih =>
    intro store h
    rw [List.foldl_cons]
    refine ih (apply_op store op) ?_
    cases op with
    | save w e enc s c now => exact save_preserves_distinct store w e enc s c now h
    | delete w e => exact delete_preserves_distinct store w e h

/-- C4: along every sequence of saves (including conflict-resolved
ones, which re-enter `save_password`) and deletes from the empty store,
no two records ever share a case-sensitive identity pair; moreover a
save whose identity pair is already present rewrites rows in place — the
store keeps its length and every resulting identity pair already existed
— instead of inserting a second record. -/
theorem store_identity_pairs_unique :
    (∀ ops : List StoreOp, distinct_identities (run_ops ops)) ∧
    (∀ (store : List Record) (w e enc s c now : String),
      store.any (fun r => identity_matches r w e) = true →
      (save_password store w e enc s c now).1.length = store.length ∧
      ∀ r ∈ (save_password store w e enc s c now).1, ∃ r0 ∈ store,
        r.website = r0.website ∧ r.email = r0.email) := by
  constructor
  · intro ops
    exact run_from_preserves_distinct ops [] (List.Pairwise.nil)
  · intro store w e enc s c now hx
    unfold save_password
    simp only [hx, if_true]
    constructor
    · exact List.length_map _ _
    · intro r hr
      rw [List.mem_map] at hr
      obtain ⟨r0, hr0, rfl⟩ := hr
      refine ⟨r0, hr0, ?_⟩
      by_cases h0 : identity_matches r0 w e = true <;> simp [h0]

/-- C4 witness: overwriting the sole record of a one-record store keeps
the store at one record, via the theorem. -/
theorem store_identity_pairs_unique_witness :
    (save_password [⟨"X", "y", "p", "s", "d", "General"⟩] "X" "y" "p2" "s2" "Work"
      "d2").1.length = 1 :=
  (store_identity_pairs_unique.2 [⟨"X", "y", "p", "s", "d", "General"⟩] "X" "y" "p2"
    "s2" "Work" "d2" (by decide)).1

/-- C10 witness: two concrete hash functions differing only in the
digest produce the same persisted store, via the theorem. -/
theorem facade_save_discards_digest_witness :
    controller_save id (fun _ => ("digestA", "salt0")) [] "bank.com" "alice" "pw"
        "Banking" "t0" =
      controller_save id (fun _ => ("digestB", "salt0")) [] "bank.com" "alice" "pw"
        "Banking" "t0" :=
  facade_save_discards_digest id (fun _ => ("digestA", "salt0"))
    (fun _ => ("digestB", "salt0")) [] "bank.com" "alice" "pw" "Banking" "t0" rfl

end MyPass
